import Mathlib

/-!
# Verification of the adaptive trust-region optimizer (pymor/algorithms/tr.py)

Shallow embedding of the `trust_region` outer loop and the `TRSurrogate`
two-phase-commit state machine from `src/pymor/algorithms/tr.py`.

Numbers are modelled as rationals (`ℚ`); parameter vectors, reduced models
and reductors are abstract types supplied through an environment `Env` of
collaborator operations (the full model, the reductor, the parameter space
and the BFGS subproblem solver are external to the analyzed file and enter
only through their interface, mirroring the source's call structure).
-/

namespace PymorTR

/-- Environment of external collaborators used by `trust_region` and
`TRSurrogate`.  `M` is the type of parameter vectors (`mu`), `Rom` the type
of reduced-order models, `Red` the type of reductors.

Modelled from the spec: the subproblem solver `error_aware_bfgs`
(`pymor/algorithms/bfgs.py`, not among the analyzed sources) is a black-box
total function returning a candidate parameter together with the list of its
sub-iterates (`sub_data.mus`, whose head is the starting point); per the
spec, subproblem non-convergence is reported through this trace, never by an
exception.  Likewise `ParameterSpace.clip`, the full model's
`solve`/`output`/`output_d_mu`, the reductor's `extend_basis`/`reduce`
(combined into `extendAndReduce`, `none` modelling a failure inside the
`try` block of `TRSurrogate.extend`), the reduced model's `output` and
`estimate_output_error`, and `np.linalg.norm` (value `norm`, finiteness of
the float result `normFinite`) are interface operations of collaborators. -/
structure Env (M Rom Red : Type) where
  bfgs : Rom → ℚ → M → M × List M
  rom_output : Rom → M → ℚ
  estimate_output_error : Rom → M → ℚ
  fom_output : M → ℚ
  fom_gradient : M → M
  extendAndReduce : Red → M → Option (Red × Rom)
  clip : M → M
  sub : M → M → M
  norm : M → ℚ
  normFinite : M → Bool

variable {M Rom Red : Type}

/-- State of `TRSurrogate`: the committed pair `(rom, reductor)` and the
pending pair `(new_rom, new_reductor)` (placeholders `None` in the source). -/
structure TRSurrogate (Rom Red : Type) where
  rom : Rom
  reductor : Red
  new_rom : Option Rom
  new_reductor : Option Red
deriving DecidableEq

/-- `TRSurrogate.extend`: solve the full model at `mu`, deep-copy the
reductor, try to extend the basis and re-reduce; on any exception fall back
to aliasing the committed pair (`new_reductor = reductor`, `new_rom = rom`). -/
def TRSurrogate.extend (env : Env M Rom Red) (s : TRSurrogate Rom Red) (mu : M) :
    TRSurrogate Rom Red :=
  match env.extendAndReduce s.reductor mu with
  | some rr => { s with new_reductor := some rr.1, new_rom := some rr.2 }
  | none => { s with new_reductor := some s.reductor, new_rom := some s.rom }

/-- `TRSurrogate.new_rom_output`: output of the pending reduced model
(the source asserts `new_rom is not None`; the `none` case is unreachable
in the loop since `extend` always precedes). -/
def TRSurrogate.new_rom_output (env : Env M Rom Red) (s : TRSurrogate Rom Red) (mu : M) : ℚ :=
  match s.new_rom with
  | some r => env.rom_output r mu
  | none => 0

/-- `TRSurrogate.accept`: commit the pending pair and clear it; the source
asserts that a pending model exists (`none` models the assertion failure). -/
def TRSurrogate.accept (s : TRSurrogate Rom Red) : Option (TRSurrogate Rom Red) :=
  match s.new_rom, s.new_reductor with
  | some r, some red =>
      some { rom := r, reductor := red, new_rom := none, new_reductor := none }
  | _, _ => none

/-- `TRSurrogate.reject`: discard the pending pair; always succeeds. -/
def TRSurrogate.reject (s : TRSurrogate Rom Red) : TRSurrogate Rom Red :=
  { s with new_rom := none, new_reductor := none }

/-- The `error_aware_line_search_criterion` closure from `trust_region`
(lines 118-122): flags `new_mu` when the estimated output error relative to
`|current_value|` reaches `beta * radius`.  `rom` is the committed reduced
model of the surrogate at call time. -/
def error_aware_line_search_criterion (env : Env M Rom Red) (rom : Rom)
    (beta radius : ℚ) (new_mu : M) (current_value : ℚ) : Bool :=
  if env.estimate_output_error rom new_mu / |current_value| ≥ beta * radius then
    true
  else
    false

/-- The configuration parameters of `trust_region` used by the outer loop
(the remaining keyword arguments are forwarded verbatim to the subproblem
solver and are absorbed into `Env.bfgs`). -/
structure Config where
  beta : ℚ
  shrink_factor : ℚ
  miniter : ℕ
  maxiter : ℕ
  tol_criticality : ℚ
  radius_tol : ℚ
deriving DecidableEq

/-- The iteration record `data` accumulated by `trust_region`: `mus`,
`update_norms`, `foc_norms` and `subproblem_data` (each subproblem trace is
represented by its list of sub-iterates `sub_data.mus`). -/
structure TRData (M : Type) where
  mus : List M
  update_norms : List ℚ
  foc_norms : List ℚ
  subproblem_data : List (List M)
deriving DecidableEq

/-- The two `TRError` raise sites of `trust_region`: iteration budget
exhaustion (line 151) and a non-finite parameter norm (line 240). -/
inductive TRErrorKind where
  | maxiterExceeded
  | nonFiniteNorm
deriving DecidableEq

/-- State of the outer loop of `trust_region` at the top of the `while` body.
`first_order_criticality = none` models the initial `np.inf`;
`mu_norm_fin` caches `np.isfinite(np.linalg.norm(mu))` for the current value
of the variable `mu_norm` (computed at line 129 and recomputed only at line
213, i.e. on acceptance).  `ghost_extends` is ghost instrumentation counting
executed `surrogate.extend` call sites; it is not program state. -/
structure LoopState (M Rom Red : Type) where
  mu : M
  radius : ℚ
  iteration : ℕ
  first_order_criticality : Option ℚ
  mu_norm_fin : Bool
  old_rom_output : ℚ
  old_fom_output : ℚ
  surrogate : TRSurrogate Rom Red
  data : TRData M
  ghost_extends : ℕ
deriving DecidableEq

/-- Result of one pass of the outer loop: continue with a new state, return
successfully (`break` at line 148, returning `mu`, the record and the
iteration count), or raise a `TRError`. -/
inductive StepResult (M Rom Red : Type) where
  | cont (s : LoopState M Rom Red)
  | done (mu : M) (data : TRData M) (iteration : ℕ)
  | fail (e : TRErrorKind) (iteration : ℕ)
deriving DecidableEq

/-- The candidate `mu` returned by the BFGS subproblem (line 159). -/
def candidate (env : Env M Rom Red) (s : LoopState M Rom Red) : M :=
  (env.bfgs s.surrogate.rom s.radius s.mu).1

/-- The sub-iterate trace `sub_data.mus` of the subproblem (line 159). -/
def subIterates (env : Env M Rom Red) (s : LoopState M Rom Red) : List M :=
  (env.bfgs s.surrogate.rom s.radius s.mu).2

/-- The AGC point `sub_data.mus[index]` with `index = 1 if len > 1 else 0`
(line 167).  The default `s.mu` is never used: the trace contains at least
the starting point. -/
def agcPoint (env : Env M Rom Red) (s : LoopState M Rom Red) : M :=
  (subIterates env s).getD (if 1 < (subIterates env s).length then 1 else 0) s.mu

/-- `compare_output` (line 168): committed reduced output at the AGC point. -/
def compareOutput (env : Env M Rom Red) (s : LoopState M Rom Red) : ℚ :=
  env.rom_output s.surrogate.rom (agcPoint env s)

/-- `estimate_output` (line 169): estimated output error at the candidate. -/
def estimateOutput (env : Env M Rom Red) (s : LoopState M Rom Red) : ℚ :=
  env.estimate_output_error s.surrogate.rom (candidate env s)

/-- `current_output` (line 170): committed (pre-extension) reduced output at
the candidate. -/
def currentOutput (env : Env M Rom Red) (s : LoopState M Rom Red) : ℚ :=
  env.rom_output s.surrogate.rom (candidate env s)

/-- The surrogate after `surrogate.extend(mu)` at the candidate. -/
def extSurr (env : Env M Rom Red) (s : LoopState M Rom Red) : TRSurrogate Rom Red :=
  TRSurrogate.extend env s.surrogate (candidate env s)

/-- `surrogate.new_rom_output(mu)` (line 192): post-extension reduced output
at the candidate. -/
def updatedOutput (env : Env M Rom Red) (s : LoopState M Rom Red) : ℚ :=
  TRSurrogate.new_rom_output env (extSurr env s) (candidate env s)

/-- The radius-growth test (lines 178 and 197):
`fom_output_diff >= radius_tol * rom_output_diff`, where `out` is the value
bound to `current_output` at the test site. -/
def growCondition (env : Env M Rom Red) (cfg : Config) (s : LoopState M Rom Red)
    (out : ℚ) : Prop :=
  cfg.radius_tol * (s.old_rom_output - out) ≤ s.old_fom_output - env.fom_output (candidate env s)

instance (env : Env M Rom Red) (cfg : Config) (s : LoopState M Rom Red) (out : ℚ) :
    Decidable (growCondition env cfg s out) := by
  unfold growCondition
  infer_instance

/-- `first_order_criticality` as recomputed on acceptance (line 220):
`norm (mu - clip (mu - gradient))`. -/
def focValue (env : Env M Rom Red) (mu : M) : ℚ :=
  env.norm (env.sub mu (env.clip (env.sub mu (env.fom_gradient mu))))

/-- The loop state after the acceptance branch (lines 211-226): append the
candidate, its update norm, the subproblem trace and the fresh criticality
to the record, recompute the cached norm, commit the surrogate and update
`old_rom_output` with the output value `out2` bound at the branch. -/
def acceptState (env : Env M Rom Red) (s : LoopState M Rom Red)
    (surr2 : TRSurrogate Rom Red) (radius2 out2 : ℚ) : LoopState M Rom Red :=
  { mu := candidate env s
    radius := radius2
    iteration := s.iteration + 1
    first_order_criticality := some (focValue env (candidate env s))
    mu_norm_fin := env.normFinite (candidate env s)
    old_rom_output := out2
    old_fom_output := s.old_fom_output
    surrogate := (surr2.accept).getD surr2
    data :=
      { mus := s.data.mus ++ [candidate env s]
        update_norms := s.data.update_norms ++ [env.norm (env.sub (candidate env s) s.mu)]
        foc_norms := s.data.foc_norms ++ [focValue env (candidate env s)]
        subproblem_data := s.data.subproblem_data ++ [subIterates env s] }
    ghost_extends := s.ghost_extends + 1 }

/-- The loop state after the rejection branch (lines 227-230): restore `mu`
(it was never overwritten in the state), shrink the radius, discard the
pending surrogate pair.  `g2` is the ghost extension count. -/
def rejectState (s : LoopState M Rom Red) (surr2 : TRSurrogate Rom Red)
    (radius2 : ℚ) (g2 : ℕ) : LoopState M Rom Red :=
  { s with
    radius := radius2
    iteration := s.iteration + 1
    surrogate := surr2.reject
    ghost_extends := g2 }

/-- The end-of-iteration degeneracy guard (lines 239-240): raise `TRError`
when the cached `mu_norm` is not finite, else continue. -/
def finishStep (s2 : LoopState M Rom Red) : StepResult M Rom Red :=
  if s2.mu_norm_fin then .cont s2 else .fail .nonFiniteNorm s2.iteration

/-- Whether the three-way classification (lines 173-208) accepts the
candidate (the negation of the source's `rejected` flag). -/
def stepAccepted (env : Env M Rom Red) (s : LoopState M Rom Red) : Bool :=
  if currentOutput env s + estimateOutput env s < compareOutput env s then true
  else if compareOutput env s < currentOutput env s - estimateOutput env s then false
  else if updatedOutput env s ≤ compareOutput env s then true
  else false

/-- The cached norm finiteness after the classification and commit/rollback
of one loop body: recomputed at the candidate on acceptance, stale otherwise. -/
def steppedFin (env : Env M Rom Red) (s : LoopState M Rom Red) : Bool :=
  if stepAccepted env s then env.normFinite (candidate env s) else s.mu_norm_fin

/-- The body of one outer iteration of `trust_region` (lines 153-240):
subproblem solve, three-way classification, commit or rollback, degeneracy
guard. -/
def trBody (env : Env M Rom Red) (cfg : Config) (s : LoopState M Rom Red) :
    StepResult M Rom Red :=
  if currentOutput env s + estimateOutput env s < compareOutput env s then
    finishStep (acceptState env s (extSurr env s)
      (if growCondition env cfg s (currentOutput env s) then
        s.radius / cfg.shrink_factor
      else s.radius)
      (currentOutput env s))
  else if compareOutput env s < currentOutput env s - estimateOutput env s then
    finishStep (rejectState s s.surrogate (s.radius * cfg.shrink_factor) s.ghost_extends)
  else if updatedOutput env s ≤ compareOutput env s then
    finishStep (acceptState env s (extSurr env s)
      (if growCondition env cfg s (updatedOutput env s) then
        s.radius / cfg.shrink_factor
      else s.radius)
      (updatedOutput env s))
  else
    finishStep (rejectState s (extSurr env s) (s.radius * cfg.shrink_factor)
      (s.ghost_extends + 1))

/-- `first_order_criticality < tol_criticality` where `none` models the
initial `np.inf` (for which the comparison is false). -/
def focBelow (f : Option ℚ) (tol : ℚ) : Bool :=
  match f with
  | none => false
  | some v => decide (v < tol)

/-- One full pass of the `while` loop (lines 139-240): the termination check
(lines 143-151) runs only once `iteration >= miniter`; otherwise the body
executes. -/
def trStep (env : Env M Rom Red) (cfg : Config) (s : LoopState M Rom Red) :
    StepResult M Rom Red :=
  if cfg.miniter ≤ s.iteration then
    if focBelow s.first_order_criticality cfg.tol_criticality then
      .done s.mu s.data s.iteration
    else if cfg.maxiter ≤ s.iteration then
      .fail .maxiterExceeded s.iteration
    else
      trBody env cfg s
  else
    trBody env cfg s

/-- Fuel-indexed iteration of `trStep`; `none` means the fuel ran out before
the loop returned or raised. -/
def trLoop (env : Env M Rom Red) (cfg : Config) :
    ℕ → LoopState M Rom Red → Option (StepResult M Rom Red)
  | 0, _ => none
  | fuel + 1, s =>
    match trStep env cfg s with
    | .cont s2 => trLoop env cfg fuel s2
    | r => some r

/-- The loop state at entry of the first iteration (lines 124-138), given the
committed pair `(rom0, red0)` produced by the surrogate construction at the
initial guess `mu0`. -/
def initLoopState (env : Env M Rom Red) (rom0 : Rom) (red0 : Red) (mu0 : M)
    (radius0 : ℚ) : LoopState M Rom Red :=
  { mu := mu0
    radius := radius0
    iteration := 0
    first_order_criticality := none
    mu_norm_fin := env.normFinite mu0
    old_rom_output := env.rom_output rom0 mu0
    old_fom_output := env.fom_output mu0
    surrogate := { rom := rom0, reductor := red0, new_rom := none, new_reductor := none }
    data := { mus := [mu0], update_norms := [], foc_norms := [], subproblem_data := [] }
    ghost_extends := 0 }

/-! ## Concrete fixtures for evaluating the embedding -/

/-- Builder for concrete environments over naturals: parameter vectors,
reduced models and reductors are coded by naturals; the gradient and `clip`
are the identity, subtraction is truncated natural subtraction and the norm
of a coded vector `m` is `m` itself (hence nonnegative). -/
def mkEnv (bf : ℕ → ℚ → ℕ → ℕ × List ℕ) (ro : ℕ → ℕ → ℚ) (ee : ℕ → ℕ → ℚ)
    (fo : ℕ → ℚ) (ext : ℕ → ℕ → Option (ℕ × ℕ)) (nf : ℕ → Bool) : Env ℕ ℕ ℕ :=
  { bfgs := bf
    rom_output := ro
    estimate_output_error := ee
    fom_output := fo
    fom_gradient := id
    extendAndReduce := ext
    clip := id
    sub := fun a b => a - b
    norm := fun m => (m : ℚ)
    normFinite := nf }

/-- Builder for concrete loop states with a committed surrogate pair, an
empty pending pair and a fresh record. -/
def mkState (mu : ℕ) (radius : ℚ) (foc : Option ℚ) (fin : Bool) (oro ofo : ℚ)
    (rom red : ℕ) : LoopState ℕ ℕ ℕ :=
  { mu := mu
    radius := radius
    iteration := 0
    first_order_criticality := foc
    mu_norm_fin := fin
    old_rom_output := oro
    old_fom_output := ofo
    surrogate := ⟨rom, red, none, none⟩
    data := ⟨[mu], [], [], []⟩
    ghost_extends := 0 }

/-- Default-like configuration with small rational values. -/
def cfg0 : Config :=
  { beta := 95 / 100
    shrink_factor := 1 / 2
    miniter := 0
    maxiter := 30
    tol_criticality := 1 / 1000000
    radius_tol := 3 / 4 }

/-- Environment whose basis extension always fails. -/
def failEnv : Env ℕ ℕ ℕ :=
  mkEnv (fun _ _ m => (m + 2, [m, m + 1, m + 2])) (fun _ m => (m : ℚ)) (fun _ _ => 0)
    (fun _ => 0) (fun _ _ => none) (fun _ => true)

/-- Environment whose basis extension always succeeds, producing the fresh
pair `(reductor 7, rom 2)`. -/
def okEnv : Env ℕ ℕ ℕ :=
  mkEnv (fun _ _ m => (m + 2, [m, m + 1, m + 2])) (fun _ m => (m : ℚ)) (fun _ _ => 0)
    (fun _ => 0) (fun _ _ => some (7, 2)) (fun _ => true)

/-- Environment whose subproblem improves the reduced output
(`rom_output` decreasing along the trace), with exact estimates. -/
def envA : Env ℕ ℕ ℕ :=
  mkEnv (fun _ _ m => (m + 2, [m, m + 1, m + 2])) (fun _ m => -(m : ℚ)) (fun _ _ => 0)
    (fun _ => 0) (fun red _ => some (red + 1, 1)) (fun _ => true)

/-- Ambiguous-case environment whose extension improves the candidate
output: the committed model (rom id `0`) outputs `0` everywhere with error
estimate `1`, the extended model (rom id `1`) outputs `-4`. -/
def envC : Env ℕ ℕ ℕ :=
  mkEnv (fun _ _ m => (m + 2, [m, m + 1, m + 2])) (fun r _ => if r = 0 then 0 else -4)
    (fun _ _ => 1) (fun _ => 0) (fun red _ => some (red + 1, 1)) (fun _ => true)

/-- Ambiguous-case environment whose extension worsens the candidate
output: the extended model (rom id `1`) outputs `4`. -/
def envC2 : Env ℕ ℕ ℕ :=
  mkEnv (fun _ _ m => (m + 2, [m, m + 1, m + 2])) (fun r _ => if r = 0 then 0 else 4)
    (fun _ _ => 1) (fun _ => 0) (fun red _ => some (red + 1, 1)) (fun _ => true)

/-- Environment in which the candidate parameter (here `2`, reached from
starting point `0`) has a non-finite norm, while the subproblem always
proposes a pessimistically classified candidate. -/
def envN : Env ℕ ℕ ℕ :=
  mkEnv (fun _ _ m => (m + 2, [m, m + 1, m + 2])) (fun _ m => (m : ℚ)) (fun _ _ => 0)
    (fun _ => 0) (fun _ _ => some (7, 2)) (fun m => decide (m ≠ 2))

/-- Loop state for the optimistic fixture. -/
def sA : LoopState ℕ ℕ ℕ := mkState 0 (1 / 10) none true 0 2 0 0

/-- Loop state for the pessimistic fixture (used with `okEnv`, whose
reduced output increases along the trace). -/
def sP : LoopState ℕ ℕ ℕ := mkState 0 (1 / 10) none true 0 0 0 1

/-- Loop state for the ambiguous fixtures: `old_rom_output = 0`,
`old_fom_output = 1`. -/
def sC : LoopState ℕ ℕ ℕ := mkState 0 (1 / 10) none true 0 1 0 0

/-- Loop state for the non-finite-candidate fixture. -/
def sN : LoopState ℕ ℕ ℕ := mkState 0 (1 / 10) none true 0 0 0 1

/-- Formalization of the claim C5 property for a second `extend` without an
intervening `accept`/`reject`: the first pending pair is kept, or it is
overwritten per the no-op fallback-on-failure rule (the pending pair becomes
the committed pair). -/
def extendKeepsPending (env : Env M Rom Red) (s : TRSurrogate Rom Red) (mu : M) : Prop :=
  ((TRSurrogate.extend env s mu).new_rom = s.new_rom ∧
    (TRSurrogate.extend env s mu).new_reductor = s.new_reductor) ∨
  ((TRSurrogate.extend env s mu).new_rom = some s.rom ∧
    (TRSurrogate.extend env s mu).new_reductor = some s.reductor)

/-- Observation: the working parameter of a continuing step result. -/
def contMu (r : StepResult M Rom Red) : Option M :=
  match r with
  | .cont s2 => some s2.mu
  | _ => none

/-- Observation: the radius of a continuing step result. -/
def contRadius (r : StepResult M Rom Red) : Option ℚ :=
  match r with
  | .cont s2 => some s2.radius
  | _ => none

/-- Nonnegativity of a (possibly infinite) criticality value. -/
def focNN (f : Option ℚ) : Prop :=
  ∀ v, f = some v → 0 ≤ v

/-! ## C6: the error-aware line-search criterion -/

/-- C6: the criterion callback accepts (returns `false` for) a candidate
exactly when `estimate_output_error(candidate) / |current_value| <
beta * radius`, i.e. it flags exactly the candidates whose relative
estimated error fails this bound. -/
theorem criterion_flags_iff (env : Env M Rom Red) (rom : Rom) (beta radius : ℚ)
    (new_mu : M) (current_value : ℚ) :
    error_aware_line_search_criterion env rom beta radius new_mu current_value = false ↔
      env.estimate_output_error rom new_mu / |current_value| < beta * radius := by
  unfold error_aware_line_search_criterion
  split
  · rename_i h
    exact iff_of_false (by simp) (not_lt.mpr h)
  · rename_i h
    exact iff_of_true rfl (lt_of_not_le h)

/-! ## C8: extension failure falls back to a no-op -/

/-- C8: if basis extension or re-reduction fails inside
`TRSurrogate.extend`, the pending pair falls back to aliasing the committed
pair and the committed pair is unchanged; `extend` is total, so no error
propagates to the caller. -/
theorem extend_failure_fallback (env : Env M Rom Red) (s : TRSurrogate Rom Red) (mu : M)
    (h : env.extendAndReduce s.reductor mu = none) :
    TRSurrogate.extend env s mu =
      { rom := s.rom, reductor := s.reductor,
        new_rom := some s.rom, new_reductor := some s.reductor } := by
  unfold TRSurrogate.extend
  rw [h]

/-- Evaluation of `extend_failure_fallback` at a concrete failing input. -/
theorem extend_failure_fallback_wit :
    TRSurrogate.extend failEnv ⟨3, 4, none, none⟩ 7 =
      { rom := 3, reductor := 4, new_rom := some 3, new_reductor := some 4 } :=
  extend_failure_fallback failEnv ⟨3, 4, none, none⟩ 7 rfl

/-! ## C5: the two-phase-commit discipline of `TRSurrogate` -/

/-- C5 counterexample: with committed pair `(0, 1)` and pending pair
`(5, 6)`, a second successful `extend` replaces the pending pair by
`(2, 7)`, silently dropping the first pending state without `reject` and
not per the fallback rule. -/
theorem extend_drops_pending_cex :
    ¬ extendKeepsPending okEnv ⟨0, 1, some 5, some 6⟩ 9 := by
  unfold extendKeepsPending
  decide

/-- C5 amended: `accept` without a pending pair fails, and a second `extend`
always rebuilds the pending pair from the committed pair — discarding any
prior pending state — leaving the committed pair unchanged (on failure it
aliases the committed pair, per the fallback rule). -/
theorem two_phase_commit (env : Env M Rom Red) (s t : TRSurrogate Rom Red) (mu : M)
    (h : s.new_rom = none) :
    s.accept = none ∧
      TRSurrogate.extend env t mu =
        TRSurrogate.extend env ⟨t.rom, t.reductor, none, none⟩ mu ∧
      (TRSurrogate.extend env t mu).rom = t.rom ∧
      (TRSurrogate.extend env t mu).reductor = t.reductor := by
  refine ⟨?_, ?_, ?_, ?_⟩
  · unfold TRSurrogate.accept
    rw [h]
  · unfold TRSurrogate.extend
    cases env.extendAndReduce t.reductor mu <;> rfl
  · unfold TRSurrogate.extend
    cases env.extendAndReduce t.reductor mu <;> rfl
  · unfold TRSurrogate.extend
    cases env.extendAndReduce t.reductor mu <;> rfl

/-- Evaluation of `two_phase_commit` at concrete inputs. -/
theorem two_phase_commit_wit :
    TRSurrogate.accept (⟨0, 1, none, none⟩ : TRSurrogate ℕ ℕ) = none ∧
      TRSurrogate.extend okEnv ⟨0, 1, some 5, some 6⟩ 9 =
        TRSurrogate.extend okEnv ⟨0, 1, none, none⟩ 9 ∧
      (TRSurrogate.extend okEnv ⟨0, 1, some 5, some 6⟩ 9).rom = 0 ∧
      (TRSurrogate.extend okEnv ⟨0, 1, some 5, some 6⟩ 9).reductor = 1 :=
  two_phase_commit okEnv ⟨0, 1, none, none⟩ ⟨0, 1, some 5, some 6⟩ 9 rfl

/-! ## Helper lemmas about single loop passes -/

lemma finishStep_cont (X : LoopState M Rom Red) (h : X.mu_norm_fin = true) :
    finishStep X = .cont X := by
  unfold finishStep
  rw [if_pos h]

lemma reject_of_no_pending (t : TRSurrogate Rom Red) (hp : t.new_rom = none)
    (hq : t.new_reductor = none) : t.reject = t := by
  cases t
  simp_all [TRSurrogate.reject]

lemma extend_reject (env : Env M Rom Red) (t : TRSurrogate Rom Red) (mu : M) :
    (TRSurrogate.extend env t mu).reject = t.reject := by
  unfold TRSurrogate.extend TRSurrogate.reject
  cases env.extendAndReduce t.reductor mu <;> rfl

/-! ## C1: the optimistic and pessimistic classification branches -/

/-- C1: in an outer iteration, when `S(mu') + err < S(AGC)` the surrogate is
extended at the candidate and committed, the candidate is accepted into the
state and the record, and the radius is divided by `shrink_factor` exactly
when `old_fom_output - fom_output(mu') >= radius_tol * (old_rom_output -
S(mu'))` (with `S(mu')` the pre-extension output), otherwise unchanged;
when `S(mu') - err > S(AGC)` the candidate is rejected with no extension
attempted (ghost extension count unchanged) and the radius is multiplied by
`shrink_factor`.  The hypothesis `he` is the error estimator's
nonnegativity contract. -/
theorem classify_optimistic_pessimistic (env : Env M Rom Red) (cfg : Config)
    (s : LoopState M Rom Red) (he : 0 ≤ estimateOutput env s) :
    (currentOutput env s + estimateOutput env s < compareOutput env s →
      ∃ s2, trBody env cfg s = finishStep s2 ∧
        s2.mu = candidate env s ∧
        s2.data.mus = s.data.mus ++ [candidate env s] ∧
        s2.iteration = s.iteration + 1 ∧
        s2.surrogate = ((extSurr env s).accept).getD (extSurr env s) ∧
        s2.ghost_extends = s.ghost_extends + 1 ∧
        (growCondition env cfg s (currentOutput env s) →
          s2.radius = s.radius / cfg.shrink_factor) ∧
        (¬ growCondition env cfg s (currentOutput env s) → s2.radius = s.radius)) ∧
    (compareOutput env s < currentOutput env s - estimateOutput env s →
      ∃ s2, trBody env cfg s = finishStep s2 ∧
        s2.mu = s.mu ∧
        s2.data = s.data ∧
        s2.iteration = s.iteration + 1 ∧
        s2.surrogate = s.surrogate.reject ∧
        s2.ghost_extends = s.ghost_extends ∧
        s2.radius = s.radius * cfg.shrink_factor) := by
  constructor
  · intro h1
    refine ⟨acceptState env s (extSurr env s)
        (if growCondition env cfg s (currentOutput env s) then s.radius / cfg.shrink_factor
          else s.radius) (currentOutput env s), ?_, rfl, rfl, rfl, rfl, rfl, ?_, ?_⟩
    · unfold trBody
      rw [if_pos h1]
    · intro hg
      show (if growCondition env cfg s (currentOutput env s) then
          s.radius / cfg.shrink_factor else s.radius) = s.radius / cfg.shrink_factor
      rw [if_pos hg]
    · intro hg
      show (if growCondition env cfg s (currentOutput env s) then
          s.radius / cfg.shrink_factor else s.radius) = s.radius
      rw [if_neg hg]
  · intro h2
    have hno : ¬ (currentOutput env s + estimateOutput env s < compareOutput env s) := by
      have : compareOutput env s < currentOutput env s + estimateOutput env s :=
        lt_of_lt_of_le h2 (by linarith)
      exact not_lt.mpr this.le
    refine ⟨rejectState s s.surrogate (s.radius * cfg.shrink_factor) s.ghost_extends,
      ?_, rfl, rfl, rfl, rfl, rfl, rfl⟩
    unfold trBody
    rw [if_neg hno, if_pos h2]

/-- Evaluation of `classify_optimistic_pessimistic` at concrete inputs: an
optimistic case (with `envA`) and a pessimistic case (with `okEnv`). -/
theorem classify_optimistic_pessimistic_wit :
    (∃ s2, trBody envA cfg0 sA = finishStep s2 ∧
      s2.mu = candidate envA sA ∧
      s2.data.mus = sA.data.mus ++ [candidate envA sA] ∧
      s2.iteration = sA.iteration + 1 ∧
      s2.surrogate = ((extSurr envA sA).accept).getD (extSurr envA sA) ∧
      s2.ghost_extends = sA.ghost_extends + 1 ∧
      (growCondition envA cfg0 sA (currentOutput envA sA) →
        s2.radius = sA.radius / cfg0.shrink_factor) ∧
      (¬ growCondition envA cfg0 sA (currentOutput envA sA) → s2.radius = sA.radius)) ∧
    (∃ s2, trBody okEnv cfg0 sP = finishStep s2 ∧
      s2.mu = sP.mu ∧
      s2.data = sP.data ∧
      s2.iteration = sP.iteration + 1 ∧
      s2.surrogate = sP.surrogate.reject ∧
      s2.ghost_extends = sP.ghost_extends ∧
      s2.radius = sP.radius * cfg0.shrink_factor) :=
  ⟨(classify_optimistic_pessimistic envA cfg0 sA
        (by norm_num [estimateOutput, candidate, envA, sA, mkEnv, mkState])).1
      (by norm_num [currentOutput, estimateOutput, compareOutput, candidate, agcPoint,
        subIterates, envA, sA, mkEnv, mkState]),
    (classify_optimistic_pessimistic okEnv cfg0 sP
        (by norm_num [estimateOutput, candidate, okEnv, sP, mkEnv, mkState])).2
      (by norm_num [currentOutput, estimateOutput, compareOutput, candidate, agcPoint,
        subIterates, okEnv, sP, mkEnv, mkState])⟩

/-! ## C4: rollback correctness on rejection -/

/-- C4: after a rejected iteration body (pessimistic rejection or ambiguous
rejection), the working parameter, committed surrogate pair, record,
criticality, cached outputs and cached norm are value-for-value identical to
their pre-iteration values; only the radius (multiplied by `shrink_factor`)
and the iteration counter change.  `hp`/`hq` record the loop invariant that
no pending pair exists at iteration start, `hfin` that the cached norm is
finite (so the iteration completes), and `he` is the estimator's
nonnegativity contract. -/
theorem rollback_on_reject (env : Env M Rom Red) (cfg : Config) (s : LoopState M Rom Red)
    (he : 0 ≤ estimateOutput env s)
    (hp : s.surrogate.new_rom = none) (hq : s.surrogate.new_reductor = none)
    (hfin : s.mu_norm_fin = true)
    (hrej : compareOutput env s < currentOutput env s - estimateOutput env s ∨
      (¬ (currentOutput env s + estimateOutput env s < compareOutput env s) ∧
        ¬ (compareOutput env s < currentOutput env s - estimateOutput env s) ∧
        compareOutput env s < updatedOutput env s)) :
    ∃ s2, trBody env cfg s = .cont s2 ∧
      s2.mu = s.mu ∧ s2.surrogate = s.surrogate ∧ s2.data = s.data ∧
      s2.first_order_criticality = s.first_order_criticality ∧
      s2.old_rom_output = s.old_rom_output ∧ s2.old_fom_output = s.old_fom_output ∧
      s2.mu_norm_fin = s.mu_norm_fin ∧
      s2.radius = s.radius * cfg.shrink_factor ∧ s2.iteration = s.iteration + 1 := by
  rcases hrej with h2 | ⟨h1, h2, h3⟩
  · have hno : ¬ (currentOutput env s + estimateOutput env s < compareOutput env s) := by
      have : compareOutput env s < currentOutput env s + estimateOutput env s :=
        lt_of_lt_of_le h2 (by linarith)
      exact not_lt.mpr this.le
    refine ⟨rejectState s s.surrogate (s.radius * cfg.shrink_factor) s.ghost_extends,
      ?_, rfl, ?_, rfl, rfl, rfl, rfl, rfl, rfl, rfl⟩
    · unfold trBody
      rw [if_neg hno, if_pos h2]
      exact finishStep_cont _ hfin
    · exact reject_of_no_pending s.surrogate hp hq
  · refine ⟨rejectState s (extSurr env s) (s.radius * cfg.shrink_factor)
        (s.ghost_extends + 1), ?_, rfl, ?_, rfl, rfl, rfl, rfl, rfl, rfl, rfl⟩
    · unfold trBody
      rw [if_neg h1, if_neg h2, if_neg (not_le.mpr h3)]
      exact finishStep_cont _ hfin
    · show (TRSurrogate.extend env s.surrogate (candidate env s)).reject = s.surrogate
      rw [extend_reject]
      exact reject_of_no_pending s.surrogate hp hq

/-- Evaluation of `rollback_on_reject` at a concrete pessimistic rejection. -/
theorem rollback_on_reject_wit :
    ∃ s2, trBody okEnv cfg0 sP = .cont s2 ∧
      s2.mu = sP.mu ∧ s2.surrogate = sP.surrogate ∧ s2.data = sP.data ∧
      s2.first_order_criticality = sP.first_order_criticality ∧
      s2.old_rom_output = sP.old_rom_output ∧ s2.old_fom_output = sP.old_fom_output ∧
      s2.mu_norm_fin = sP.mu_norm_fin ∧
      s2.radius = sP.radius * cfg0.shrink_factor ∧ s2.iteration = sP.iteration + 1 :=
  rollback_on_reject okEnv cfg0 sP
    (by norm_num [estimateOutput, candidate, okEnv, sP, mkEnv, mkState]) rfl rfl rfl
    (Or.inl (by norm_num [currentOutput, estimateOutput, compareOutput, candidate, agcPoint,
      subIterates, okEnv, sP, mkEnv, mkState]))

/-! ## Branch characterizations of one loop body -/

lemma trBody_opt (env : Env M Rom Red) (cfg : Config) (s : LoopState M Rom Red)
    (h1 : currentOutput env s + estimateOutput env s < compareOutput env s) :
    trBody env cfg s = finishStep (acceptState env s (extSurr env s)
      (if growCondition env cfg s (currentOutput env s) then s.radius / cfg.shrink_factor
        else s.radius) (currentOutput env s)) := by
  unfold trBody
  rw [if_pos h1]

lemma trBody_pess (env : Env M Rom Red) (cfg : Config) (s : LoopState M Rom Red)
    (h1 : ¬ (currentOutput env s + estimateOutput env s < compareOutput env s))
    (h2 : compareOutput env s < currentOutput env s - estimateOutput env s) :
    trBody env cfg s =
      finishStep (rejectState s s.surrogate (s.radius * cfg.shrink_factor) s.ghost_extends) := by
  unfold trBody
  rw [if_neg h1, if_pos h2]

lemma trBody_amb_acc (env : Env M Rom Red) (cfg : Config) (s : LoopState M Rom Red)
    (h1 : ¬ (currentOutput env s + estimateOutput env s < compareOutput env s))
    (h2 : ¬ (compareOutput env s < currentOutput env s - estimateOutput env s))
    (h3 : updatedOutput env s ≤ compareOutput env s) :
    trBody env cfg s = finishStep (acceptState env s (extSurr env s)
      (if growCondition env cfg s (updatedOutput env s) then s.radius / cfg.shrink_factor
        else s.radius) (updatedOutput env s)) := by
  unfold trBody
  rw [if_neg h1, if_neg h2, if_pos h3]

lemma trBody_amb_rej (env : Env M Rom Red) (cfg : Config) (s : LoopState M Rom Red)
    (h1 : ¬ (currentOutput env s + estimateOutput env s < compareOutput env s))
    (h2 : ¬ (compareOutput env s < currentOutput env s - estimateOutput env s))
    (h3 : ¬ (updatedOutput env s ≤ compareOutput env s)) :
    trBody env cfg s = finishStep
      (rejectState s (extSurr env s) (s.radius * cfg.shrink_factor) (s.ghost_extends + 1)) := by
  unfold trBody
  rw [if_neg h1, if_neg h2, if_neg h3]

lemma stepAccepted_opt (env : Env M Rom Red) (s : LoopState M Rom Red)
    (h1 : currentOutput env s + estimateOutput env s < compareOutput env s) :
    stepAccepted env s = true := by
  unfold stepAccepted
  rw [if_pos h1]

lemma stepAccepted_pess (env : Env M Rom Red) (s : LoopState M Rom Red)
    (h1 : ¬ (currentOutput env s + estimateOutput env s < compareOutput env s))
    (h2 : compareOutput env s < currentOutput env s - estimateOutput env s) :
    stepAccepted env s = false := by
  unfold stepAccepted
  rw [if_neg h1, if_pos h2]

lemma stepAccepted_amb_acc (env : Env M Rom Red) (s : LoopState M Rom Red)
    (h1 : ¬ (currentOutput env s + estimateOutput env s < compareOutput env s))
    (h2 : ¬ (compareOutput env s < currentOutput env s - estimateOutput env s))
    (h3 : updatedOutput env s ≤ compareOutput env s) :
    stepAccepted env s = true := by
  unfold stepAccepted
  rw [if_neg h1, if_neg h2, if_pos h3]

lemma stepAccepted_amb_rej (env : Env M Rom Red) (s : LoopState M Rom Red)
    (h1 : ¬ (currentOutput env s + estimateOutput env s < compareOutput env s))
    (h2 : ¬ (compareOutput env s < currentOutput env s - estimateOutput env s))
    (h3 : ¬ (updatedOutput env s ≤ compareOutput env s)) :
    stepAccepted env s = false := by
  unfold stepAccepted
  rw [if_neg h1, if_neg h2, if_neg h3]

lemma finishStep_cont_inj (X s2 : LoopState M Rom Red) (h : finishStep X = .cont s2) :
    s2 = X := by
  unfold finishStep at h
  split at h
  · exact (StepResult.cont.inj h).symm
  · simp at h

lemma finishStep_fail_iff (X : LoopState M Rom Red) (e : TRErrorKind) (i : ℕ) :
    finishStep X = .fail e i ↔
      X.mu_norm_fin = false ∧ e = .nonFiniteNorm ∧ i = X.iteration := by
  unfold finishStep
  split
  · rename_i h
    simp [h]
  · rename_i h
    simp only [Bool.not_eq_true] at h
    simp only [h, StepResult.fail.injEq, true_and]
    constructor
    · rintro ⟨ha, hb⟩
      exact ⟨ha.symm, hb.symm⟩
    · rintro ⟨ha, hb⟩
      exact ⟨ha.symm, hb.symm⟩

lemma trBody_fail_iff (env : Env M Rom Red) (cfg : Config) (s : LoopState M Rom Red)
    (e : TRErrorKind) (i : ℕ) :
    trBody env cfg s = .fail e i ↔
      e = .nonFiniteNorm ∧ i = s.iteration + 1 ∧ steppedFin env s = false := by
  by_cases h1 : currentOutput env s + estimateOutput env s < compareOutput env s
  · rw [trBody_opt env cfg s h1, finishStep_fail_iff]
    unfold steppedFin
    rw [stepAccepted_opt env s h1]
    simp only [acceptState, if_true]
    tauto
  · by_cases h2 : compareOutput env s < currentOutput env s - estimateOutput env s
    · rw [trBody_pess env cfg s h1 h2, finishStep_fail_iff]
      unfold steppedFin
      rw [stepAccepted_pess env s h1 h2]
      simp only [rejectState, Bool.false_eq_true, if_false]
      tauto
    · by_cases h3 : updatedOutput env s ≤ compareOutput env s
      · rw [trBody_amb_acc env cfg s h1 h2 h3, finishStep_fail_iff]
        unfold steppedFin
        rw [stepAccepted_amb_acc env s h1 h2 h3]
        simp only [acceptState, if_true]
        tauto
      · rw [trBody_amb_rej env cfg s h1 h2 h3, finishStep_fail_iff]
        unfold steppedFin
        rw [stepAccepted_amb_rej env s h1 h2 h3]
        simp only [rejectState, Bool.false_eq_true, if_false]
        tauto

/-! ## C9: the iteration record is append-only, one entry per accepted pass -/

/-- C9: for a completed loop body, an accepted iteration appends exactly one
entry to each tracked record field (accepted parameter, update norm,
criticality norm, subproblem trace), while a rejected iteration appends to
none of them. -/
theorem record_append_only (env : Env M Rom Red) (cfg : Config)
    (s s2 : LoopState M Rom Red) (h : trBody env cfg s = .cont s2) :
    (stepAccepted env s = true →
      s2.data.mus = s.data.mus ++ [candidate env s] ∧
      s2.data.update_norms =
        s.data.update_norms ++ [env.norm (env.sub (candidate env s) s.mu)] ∧
      s2.data.foc_norms = s.data.foc_norms ++ [focValue env (candidate env s)] ∧
      s2.data.subproblem_data = s.data.subproblem_data ++ [subIterates env s]) ∧
    (stepAccepted env s = false → s2.data = s.data) := by
  by_cases h1 : currentOutput env s + estimateOutput env s < compareOutput env s
  · rw [trBody_opt env cfg s h1] at h
    obtain rfl := finishStep_cont_inj _ _ h
    refine ⟨fun _ => ⟨rfl, rfl, rfl, rfl⟩, fun hacc => ?_⟩
    rw [stepAccepted_opt env s h1] at hacc
    simp at hacc
  · by_cases h2 : compareOutput env s < currentOutput env s - estimateOutput env s
    · rw [trBody_pess env cfg s h1 h2] at h
      obtain rfl := finishStep_cont_inj _ _ h
      refine ⟨fun hacc => ?_, fun _ => rfl⟩
      rw [stepAccepted_pess env s h1 h2] at hacc
      simp at hacc
    · by_cases h3 : updatedOutput env s ≤ compareOutput env s
      · rw [trBody_amb_acc env cfg s h1 h2 h3] at h
        obtain rfl := finishStep_cont_inj _ _ h
        refine ⟨fun _ => ⟨rfl, rfl, rfl, rfl⟩, fun hacc => ?_⟩
        rw [stepAccepted_amb_acc env s h1 h2 h3] at hacc
        simp at hacc
      · rw [trBody_amb_rej env cfg s h1 h2 h3] at h
        obtain rfl := finishStep_cont_inj _ _ h
        refine ⟨fun hacc => ?_, fun _ => rfl⟩
        rw [stepAccepted_amb_rej env s h1 h2 h3] at hacc
        simp at hacc

/-- Evaluation of `record_append_only` at concrete inputs: an accepted pass
(with `envA`) and a rejected pass (with `okEnv`). -/
theorem record_append_only_wit :
    ((acceptState envA sA (extSurr envA sA) (sA.radius / cfg0.shrink_factor)
          (currentOutput envA sA)).data.mus = sA.data.mus ++ [candidate envA sA] ∧
      (acceptState envA sA (extSurr envA sA) (sA.radius / cfg0.shrink_factor)
          (currentOutput envA sA)).data.update_norms =
        sA.data.update_norms ++ [envA.norm (envA.sub (candidate envA sA) sA.mu)] ∧
      (acceptState envA sA (extSurr envA sA) (sA.radius / cfg0.shrink_factor)
          (currentOutput envA sA)).data.foc_norms =
        sA.data.foc_norms ++ [focValue envA (candidate envA sA)] ∧
      (acceptState envA sA (extSurr envA sA) (sA.radius / cfg0.shrink_factor)
          (currentOutput envA sA)).data.subproblem_data =
        sA.data.subproblem_data ++ [subIterates envA sA]) ∧
    (rejectState sP sP.surrogate (sP.radius * cfg0.shrink_factor)
        sP.ghost_extends).data = sP.data := by
  have hopt : currentOutput envA sA + estimateOutput envA sA < compareOutput envA sA := by
    norm_num [currentOutput, estimateOutput, compareOutput, candidate, agcPoint,
      subIterates, envA, sA, mkEnv, mkState]
  have hgrow : growCondition envA cfg0 sA (currentOutput envA sA) := by
    norm_num [growCondition, currentOutput, candidate, agcPoint, subIterates, envA, sA,
      cfg0, mkEnv, mkState]
  have hpess : compareOutput okEnv sP < currentOutput okEnv sP - estimateOutput okEnv sP := by
    norm_num [currentOutput, estimateOutput, compareOutput, candidate, agcPoint,
      subIterates, okEnv, sP, mkEnv, mkState]
  have hnopt : ¬ (currentOutput okEnv sP + estimateOutput okEnv sP < compareOutput okEnv sP) := by
    norm_num [currentOutput, estimateOutput, compareOutput, candidate, agcPoint,
      subIterates, okEnv, sP, mkEnv, mkState]
  have h1 := (record_append_only envA cfg0 sA _
    (by rw [trBody_opt envA cfg0 sA hopt, if_pos hgrow]
        exact finishStep_cont _ rfl)).1 (stepAccepted_opt envA sA hopt)
  have h2 := (record_append_only okEnv cfg0 sP _
    (by rw [trBody_pess okEnv cfg0 sP hnopt hpess]
        exact finishStep_cont _ rfl)).2 (stepAccepted_pess okEnv sP hnopt hpess)
  exact ⟨h1, h2⟩

/-! ## C10: the degeneracy guard tests only the cached norm -/

/-- C10: the end-of-body non-finite guard tests the cached norm, which is
recomputed only on acceptance: on a rejected pass the guard raise condition
is exactly that the previously cached norm (from the initial guess or the
last accepted parameter) is non-finite — the rejected candidate's own norm
is irrelevant — while on an accepted pass it is the freshly accepted
candidate's norm. -/
theorem guard_uses_cached_norm (env : Env M Rom Red) (cfg : Config)
    (s : LoopState M Rom Red) :
    (stepAccepted env s = false →
      ∀ e i, (trBody env cfg s = .fail e i ↔
        e = .nonFiniteNorm ∧ i = s.iteration + 1 ∧ s.mu_norm_fin = false)) ∧
    (stepAccepted env s = true →
      ∀ e i, (trBody env cfg s = .fail e i ↔
        e = .nonFiniteNorm ∧ i = s.iteration + 1 ∧
          env.normFinite (candidate env s) = false)) ∧
    (∀ s2, trBody env cfg s = .cont s2 → s2.mu_norm_fin = steppedFin env s) := by
  refine ⟨?_, ?_, ?_⟩
  · intro hacc e i
    rw [trBody_fail_iff]
    unfold steppedFin
    rw [hacc]
    simp
  · intro hacc e i
    rw [trBody_fail_iff]
    unfold steppedFin
    rw [hacc]
    simp
  · intro s2 h
    by_cases h1 : currentOutput env s + estimateOutput env s < compareOutput env s
    · rw [trBody_opt env cfg s h1] at h
      obtain rfl := finishStep_cont_inj _ _ h
      unfold steppedFin
      rw [stepAccepted_opt env s h1]
      rfl
    · by_cases h2 : compareOutput env s < currentOutput env s - estimateOutput env s
      · rw [trBody_pess env cfg s h1 h2] at h
        obtain rfl := finishStep_cont_inj _ _ h
        unfold steppedFin
        rw [stepAccepted_pess env s h1 h2]
        rfl
      · by_cases h3 : updatedOutput env s ≤ compareOutput env s
        · rw [trBody_amb_acc env cfg s h1 h2 h3] at h
          obtain rfl := finishStep_cont_inj _ _ h
          unfold steppedFin
          rw [stepAccepted_amb_acc env s h1 h2 h3]
          rfl
        · rw [trBody_amb_rej env cfg s h1 h2 h3] at h
          obtain rfl := finishStep_cont_inj _ _ h
          unfold steppedFin
          rw [stepAccepted_amb_rej env s h1 h2 h3]
          rfl

/-- Evaluation of `guard_uses_cached_norm` at a concrete rejected pass whose
candidate has a non-finite norm while the cached norm is finite: the body
does not raise. -/
theorem guard_uses_cached_norm_wit :
    trBody envN cfg0 sN = StepResult.fail TRErrorKind.nonFiniteNorm 1 ↔
      TRErrorKind.nonFiniteNorm = TRErrorKind.nonFiniteNorm ∧ 1 = sN.iteration + 1 ∧
        sN.mu_norm_fin = false := by
  have hpess : compareOutput envN sN < currentOutput envN sN - estimateOutput envN sN := by
    norm_num [currentOutput, estimateOutput, compareOutput, candidate, agcPoint,
      subIterates, envN, sN, mkEnv, mkState]
  have hnopt : ¬ (currentOutput envN sN + estimateOutput envN sN < compareOutput envN sN) := by
    norm_num [currentOutput, estimateOutput, compareOutput, candidate, agcPoint,
      subIterates, envN, sN, mkEnv, mkState]
  exact (guard_uses_cached_norm envN cfg0 sN).1
    (stepAccepted_pess envN sN hnopt hpess) TRErrorKind.nonFiniteNorm 1

/-! ## C3: the error surface of one loop pass -/

/-- C3: a loop pass raises `TRError` in exactly two situations — the
iteration budget is exhausted at the termination check without reaching the
criticality tolerance, or the cached parameter norm is non-finite at the
end-of-body guard; nothing else (in particular no outcome of the total
`extend` fallback or of the black-box subproblem solver) produces an error
result. -/
theorem error_surface (env : Env M Rom Red) (cfg : Config) (s : LoopState M Rom Red)
    (e : TRErrorKind) (i : ℕ) :
    trStep env cfg s = .fail e i ↔
      ((e = .maxiterExceeded ∧ i = s.iteration ∧ cfg.miniter ≤ s.iteration ∧
          focBelow s.first_order_criticality cfg.tol_criticality = false ∧
          cfg.maxiter ≤ s.iteration) ∨
        (e = .nonFiniteNorm ∧ i = s.iteration + 1 ∧ steppedFin env s = false ∧
          ¬ (cfg.miniter ≤ s.iteration ∧
              (focBelow s.first_order_criticality cfg.tol_criticality = true ∨
                cfg.maxiter ≤ s.iteration)))) := by
  unfold trStep
  by_cases ha : cfg.miniter ≤ s.iteration
  · rw [if_pos ha]
    by_cases hb : focBelow s.first_order_criticality cfg.tol_criticality = true
    · rw [if_pos hb]
      constructor
      · intro hx
        simp at hx
      · rintro (⟨_, _, _, hf, _⟩ | ⟨_, _, _, hn⟩)
        · rw [hb] at hf
          simp at hf
        · exact absurd ⟨ha, Or.inl hb⟩ hn
    · rw [if_neg hb]
      have hbf : focBelow s.first_order_criticality cfg.tol_criticality = false :=
        Bool.not_eq_true _ ▸ (by simpa using hb)
      by_cases hc : cfg.maxiter ≤ s.iteration
      · rw [if_pos hc]
        constructor
        · intro hx
          obtain ⟨he, hi⟩ := StepResult.fail.inj hx
          exact Or.inl ⟨he.symm, hi.symm, ha, hbf, hc⟩
        · rintro (⟨he, hi, _, _, _⟩ | ⟨_, _, _, hn⟩)
          · rw [he, hi]
          · exact absurd ⟨ha, Or.inr hc⟩ hn
      · rw [if_neg hc]
        rw [trBody_fail_iff]
        constructor
        · rintro ⟨he, hi, hsf⟩
          exact Or.inr ⟨he, hi, hsf, by
            rintro ⟨_, hb2 | hc2⟩
            · exact hb hb2
            · exact hc hc2⟩
        · rintro (⟨_, _, _, _, hc2⟩ | ⟨he, hi, hsf, _⟩)
          · exact absurd hc2 hc
          · exact ⟨he, hi, hsf⟩
  · rw [if_neg ha]
    rw [trBody_fail_iff]
    constructor
    · rintro ⟨he, hi, hsf⟩
      exact Or.inr ⟨he, hi, hsf, fun hx => ha hx.1⟩
    · rintro (⟨_, _, ha2, _, _⟩ | ⟨he, hi, hsf, _⟩)
      · exact absurd ha2 ha
      · exact ⟨he, hi, hsf⟩

/-! ## C2: termination check and budget exhaustion -/

lemma focBelow_zero (f : Option ℚ) (h : focNN f) : focBelow f 0 = false := by
  cases f with
  | none => rfl
  | some v =>
    unfold focBelow
    exact decide_eq_false (not_lt.mpr (h v rfl))

lemma trBody_cont_of_finite (env : Env M Rom Red) (cfg : Config) (s : LoopState M Rom Red)
    (hfin : ∀ m : M, env.normFinite m = true) (hnn : ∀ m : M, 0 ≤ env.norm m)
    (h1 : s.mu_norm_fin = true) (h2 : focNN s.first_order_criticality) :
    ∃ s2, trBody env cfg s = .cont s2 ∧ s2.iteration = s.iteration + 1 ∧
      s2.mu_norm_fin = true ∧ focNN s2.first_order_criticality := by
  have hfoc : ∀ mu2 : M, focNN (some (focValue env mu2)) := by
    intro mu2 v hv
    have := Option.some.inj hv
    rw [← this]
    exact hnn _
  by_cases ha : currentOutput env s + estimateOutput env s < compareOutput env s
  · rw [trBody_opt env cfg s ha]
    exact ⟨_, finishStep_cont _ (hfin _), rfl, hfin _, hfoc _⟩
  · by_cases hb : compareOutput env s < currentOutput env s - estimateOutput env s
    · rw [trBody_pess env cfg s ha hb]
      exact ⟨_, finishStep_cont _ h1, rfl, h1, h2⟩
    · by_cases hc : updatedOutput env s ≤ compareOutput env s
      · rw [trBody_amb_acc env cfg s ha hb hc]
        exact ⟨_, finishStep_cont _ (hfin _), rfl, hfin _, hfoc _⟩
      · rw [trBody_amb_rej env cfg s ha hb hc]
        exact ⟨_, finishStep_cont _ h1, rfl, h1, h2⟩

lemma trLoop_exhausts (env : Env M Rom Red) (cfg : Config)
    (hfin : ∀ m : M, env.normFinite m = true) (hnn : ∀ m : M, 0 ≤ env.norm m)
    (htol : cfg.tol_criticality = 0) (hmini : cfg.miniter ≤ cfg.maxiter) :
    ∀ d (s : LoopState M Rom Red), s.iteration + d = cfg.maxiter →
      s.mu_norm_fin = true → focNN s.first_order_criticality →
      trLoop env cfg (d + 1) s = some (.fail .maxiterExceeded cfg.maxiter) := by
  intro d
  induction d with
  | zero =>
    intro s hit hf hfoc
    have hit0 : s.iteration = cfg.maxiter := by omega
    have hstep : trStep env cfg s = .fail .maxiterExceeded s.iteration := by
      unfold trStep
      rw [if_pos (hit0 ▸ hmini), htol, focBelow_zero _ hfoc, if_neg (by simp),
        if_pos (le_of_eq hit0.symm)]
    unfold trLoop
    rw [hstep, hit0]
  | succ d ih =>
    intro s hit hf hfoc
    have hlt : s.iteration < cfg.maxiter := by omega
    obtain ⟨s2, hb, hi2, hf2, hfoc2⟩ := trBody_cont_of_finite env cfg s hfin hnn hf hfoc
    have hstep : trStep env cfg s = .cont s2 := by
      unfold trStep
      by_cases ha : cfg.miniter ≤ s.iteration
      · rw [if_pos ha, htol, focBelow_zero _ hfoc, if_neg (by simp),
          if_neg (not_le.mpr hlt)]
        exact hb
      · rw [if_neg ha]
        exact hb
    unfold trLoop
    rw [hstep]
    exact ih s2 (by omega) hf2 hfoc2

/-- C2: the termination check runs only once `iteration >= miniter`; when it
runs, criticality below tolerance returns `mu` and the record, else a
reached budget raises `TRError`; and with `tol_criticality = 0` (unreachable
for nonnegative criticality norms) and `maxiter = N >= miniter` the loop
from the initial state raises at iteration `N + 1`'s termination check after
exactly `N` proposal iterations (the reported counter is `N`). -/
theorem termination_and_budget (env : Env M Rom Red) (cfg : Config)
    (s : LoopState M Rom Red) (rom0 : Rom) (red0 : Red) (mu0 : M) (radius0 : ℚ) :
    (cfg.miniter ≤ s.iteration →
      focBelow s.first_order_criticality cfg.tol_criticality = true →
      trStep env cfg s = .done s.mu s.data s.iteration) ∧
    (cfg.miniter ≤ s.iteration →
      focBelow s.first_order_criticality cfg.tol_criticality = false →
      cfg.maxiter ≤ s.iteration →
      trStep env cfg s = .fail .maxiterExceeded s.iteration) ∧
    (s.iteration < cfg.miniter → trStep env cfg s = trBody env cfg s) ∧
    ((∀ m : M, env.normFinite m = true) → (∀ m : M, 0 ≤ env.norm m) →
      cfg.tol_criticality = 0 → cfg.miniter ≤ cfg.maxiter →
      trLoop env cfg (cfg.maxiter + 1) (initLoopState env rom0 red0 mu0 radius0) =
        some (.fail .maxiterExceeded cfg.maxiter)) := by
  refine ⟨?_, ?_, ?_, ?_⟩
  · intro ha hb
    unfold trStep
    rw [if_pos ha, if_pos hb]
  · intro ha hb hc
    unfold trStep
    rw [if_pos ha, if_neg (by simp [hb]), if_pos hc]
  · intro ha
    unfold trStep
    rw [if_neg (not_le.mpr ha)]
  · intro hfin hnn htol hmini
    refine trLoop_exhausts env cfg hfin hnn htol hmini cfg.maxiter
      (initLoopState env rom0 red0 mu0 radius0) ?_ ?_ ?_
    · show 0 + cfg.maxiter = cfg.maxiter
      omega
    · exact hfin mu0
    · intro v hv
      cases hv

/-- The configuration used for the budget-exhaustion evaluation:
`tol_criticality = 0`, `maxiter = 2`. -/
def cfgZ : Config :=
  { cfg0 with tol_criticality := 0, maxiter := 2 }

/-- The configuration used for the reached-budget evaluation: `maxiter = 0`. -/
def cfgM : Config :=
  { cfg0 with maxiter := 0 }

/-- The configuration used for the skipped-check evaluation: `miniter = 5`. -/
def cfgMin : Config :=
  { cfg0 with miniter := 5 }

/-- A converged loop state: criticality `0`, below `cfg0.tol_criticality`. -/
def sD : LoopState ℕ ℕ ℕ := mkState 0 (1 / 10) (some 0) true 0 0 0 1

/-- Evaluation of `termination_and_budget` at concrete inputs: a successful
termination, a budget-exhaustion raise, a skipped check below `miniter`, and
a full two-iteration run that raises with counter `2`. -/
theorem termination_and_budget_wit :
    trStep okEnv cfg0 sD = .done sD.mu sD.data sD.iteration ∧
    trStep okEnv cfgM sP = .fail .maxiterExceeded sP.iteration ∧
    trStep okEnv cfgMin sP = trBody okEnv cfgMin sP ∧
    trLoop okEnv cfgZ (cfgZ.maxiter + 1) (initLoopState okEnv 0 1 0 (1 / 10)) =
      some (.fail .maxiterExceeded cfgZ.maxiter) :=
  ⟨(termination_and_budget okEnv cfg0 sD 0 1 0 (1 / 10)).1 (by norm_num [sD, mkState, cfg0])
      (by norm_num [sD, mkState, cfg0, focBelow]),
    (termination_and_budget okEnv cfgM sP 0 1 0 (1 / 10)).2.1
      (by norm_num [sP, mkState, cfgM, cfg0]) (by norm_num [sP, mkState, focBelow])
      (by norm_num [sP, mkState, cfgM, cfg0]),
    (termination_and_budget okEnv cfgMin sP 0 1 0 (1 / 10)).2.2.1
      (by norm_num [sP, mkState, cfgMin, cfg0]),
    (termination_and_budget okEnv cfgZ (initLoopState okEnv 0 1 0 (1 / 10)) 0 1 0 (1 / 10)).2.2.2
      (fun _ => rfl) (fun m => Nat.cast_nonneg m) rfl (by norm_num [cfgZ, cfg0])⟩

/-! ## C7: the ambiguous classification branch -/

/-- C7 counterexample: at a concrete ambiguous-case input that is accepted
(post-extension output below the comparison value), the claim's radius
growth condition — stated with the drop of the *pre-extension* surrogate
output — holds, yet the body leaves the radius unchanged (the source
reassigns `current_output` to the post-extension output at line 192 before
the growth test at lines 196-197), whereas the claim requires it to be
divided by `shrink_factor`. -/
theorem ambiguous_growth_cex :
    ¬ (currentOutput envC sC + estimateOutput envC sC < compareOutput envC sC) ∧
    ¬ (compareOutput envC sC < currentOutput envC sC - estimateOutput envC sC) ∧
    updatedOutput envC sC ≤ compareOutput envC sC ∧
    growCondition envC cfg0 sC (currentOutput envC sC) ∧
    contMu (trBody envC cfg0 sC) = some (candidate envC sC) ∧
    contRadius (trBody envC cfg0 sC) = some sC.radius ∧
    sC.radius ≠ sC.radius / cfg0.shrink_factor := by
  have h1 : ¬ (currentOutput envC sC + estimateOutput envC sC < compareOutput envC sC) := by
    norm_num [currentOutput, estimateOutput, compareOutput, candidate, agcPoint,
      subIterates, envC, sC, mkEnv, mkState]
  have h2 : ¬ (compareOutput envC sC < currentOutput envC sC - estimateOutput envC sC) := by
    norm_num [currentOutput, estimateOutput, compareOutput, candidate, agcPoint,
      subIterates, envC, sC, mkEnv, mkState]
  have h3 : updatedOutput envC sC ≤ compareOutput envC sC := by
    norm_num [updatedOutput, TRSurrogate.new_rom_output, extSurr, TRSurrogate.extend,
      compareOutput, candidate, agcPoint, subIterates, envC, sC, mkEnv, mkState]
  have hg : growCondition envC cfg0 sC (currentOutput envC sC) := by
    norm_num [growCondition, currentOutput, candidate, agcPoint, subIterates, envC, sC,
      cfg0, mkEnv, mkState]
  have hng : ¬ growCondition envC cfg0 sC (updatedOutput envC sC) := by
    norm_num [growCondition, updatedOutput, TRSurrogate.new_rom_output, extSurr,
      TRSurrogate.extend, candidate, agcPoint, subIterates, envC, sC, cfg0, mkEnv, mkState]
  refine ⟨h1, h2, h3, hg, ?_, ?_, ?_⟩
  · rw [trBody_amb_acc envC cfg0 sC h1 h2 h3, if_neg hng]
    rfl
  · rw [trBody_amb_acc envC cfg0 sC h1 h2 h3, if_neg hng]
    rfl
  · norm_num [sC, mkState, cfg0]

/-- C7 amended: in the ambiguous case the surrogate is extended at the
candidate and the candidate is accepted iff the post-extension output is at
most `S(AGC)`; upon acceptance the radius is divided by `shrink_factor`
exactly when the realized full-model drop is at least `radius_tol` times the
drop of the **post-extension** surrogate output (`old_rom_output -
updated_output`), otherwise unchanged (and `old_rom_output` is updated to
the post-extension output); otherwise the candidate is rejected, the radius
is multiplied by `shrink_factor` and the extension is discarded. -/
theorem ambiguous_case (env : Env M Rom Red) (cfg : Config) (s : LoopState M Rom Red)
    (h1 : ¬ (currentOutput env s + estimateOutput env s < compareOutput env s))
    (h2 : ¬ (compareOutput env s < currentOutput env s - estimateOutput env s)) :
    (updatedOutput env s ≤ compareOutput env s →
      ∃ s2, trBody env cfg s = finishStep s2 ∧
        s2.mu = candidate env s ∧
        s2.data.mus = s.data.mus ++ [candidate env s] ∧
        s2.iteration = s.iteration + 1 ∧
        s2.surrogate = ((extSurr env s).accept).getD (extSurr env s) ∧
        s2.ghost_extends = s.ghost_extends + 1 ∧
        s2.old_rom_output = updatedOutput env s ∧
        (growCondition env cfg s (updatedOutput env s) →
          s2.radius = s.radius / cfg.shrink_factor) ∧
        (¬ growCondition env cfg s (updatedOutput env s) → s2.radius = s.radius)) ∧
    (compareOutput env s < updatedOutput env s →
      ∃ s2, trBody env cfg s = finishStep s2 ∧
        s2.mu = s.mu ∧
        s2.data = s.data ∧
        s2.iteration = s.iteration + 1 ∧
        s2.surrogate = (extSurr env s).reject ∧
        s2.ghost_extends = s.ghost_extends + 1 ∧
        s2.radius = s.radius * cfg.shrink_factor) := by
  constructor
  · intro h3
    refine ⟨acceptState env s (extSurr env s)
        (if growCondition env cfg s (updatedOutput env s) then s.radius / cfg.shrink_factor
          else s.radius) (updatedOutput env s),
      trBody_amb_acc env cfg s h1 h2 h3, rfl, rfl, rfl, rfl, rfl, rfl, ?_, ?_⟩
    · intro hg
      show (if growCondition env cfg s (updatedOutput env s) then
          s.radius / cfg.shrink_factor else s.radius) = s.radius / cfg.shrink_factor
      rw [if_pos hg]
    · intro hg
      show (if growCondition env cfg s (updatedOutput env s) then
          s.radius / cfg.shrink_factor else s.radius) = s.radius
      rw [if_neg hg]
  · intro h3
    exact ⟨rejectState s (extSurr env s) (s.radius * cfg.shrink_factor) (s.ghost_extends + 1),
      trBody_amb_rej env cfg s h1 h2 (not_le.mpr h3), rfl, rfl, rfl, rfl, rfl, rfl⟩

/-- Evaluation of `ambiguous_case` at concrete inputs: an ambiguous-accept
pass (with `envC`) and an ambiguous-reject pass (with `envC2`). -/
theorem ambiguous_case_wit :
    (∃ s2, trBody envC cfg0 sC = finishStep s2 ∧
      s2.mu = candidate envC sC ∧
      s2.data.mus = sC.data.mus ++ [candidate envC sC] ∧
      s2.iteration = sC.iteration + 1 ∧
      s2.surrogate = ((extSurr envC sC).accept).getD (extSurr envC sC) ∧
      s2.ghost_extends = sC.ghost_extends + 1 ∧
      s2.old_rom_output = updatedOutput envC sC ∧
      (growCondition envC cfg0 sC (updatedOutput envC sC) →
        s2.radius = sC.radius / cfg0.shrink_factor) ∧
      (¬ growCondition envC cfg0 sC (updatedOutput envC sC) → s2.radius = sC.radius)) ∧
    (∃ s2, trBody envC2 cfg0 sC = finishStep s2 ∧
      s2.mu = sC.mu ∧
      s2.data = sC.data ∧
      s2.iteration = sC.iteration + 1 ∧
      s2.surrogate = (extSurr envC2 sC).reject ∧
      s2.ghost_extends = sC.ghost_extends + 1 ∧
      s2.radius = sC.radius * cfg0.shrink_factor) :=
  ⟨(ambiguous_case envC cfg0 sC
        (by norm_num [currentOutput, estimateOutput, compareOutput, candidate, agcPoint,
          subIterates, envC, sC, mkEnv, mkState])
        (by norm_num [currentOutput, estimateOutput, compareOutput, candidate, agcPoint,
          subIterates, envC, sC, mkEnv, mkState])).1
      (by norm_num [updatedOutput, TRSurrogate.new_rom_output, extSurr, TRSurrogate.extend,
        compareOutput, candidate, agcPoint, subIterates, envC, sC, mkEnv, mkState]),
    (ambiguous_case envC2 cfg0 sC
        (by norm_num [currentOutput, estimateOutput, compareOutput, candidate, agcPoint,
          subIterates, envC2, sC, mkEnv, mkState])
        (by norm_num [currentOutput, estimateOutput, compareOutput, candidate, agcPoint,
          subIterates, envC2, sC, mkEnv, mkState])).2
      (by norm_num [updatedOutput, TRSurrogate.new_rom_output, extSurr, TRSurrogate.extend,
        compareOutput, candidate, agcPoint, subIterates, envC2, sC, mkEnv, mkState])⟩

end PymorTR
